import Mathlib

/-!
Shallow embedding of the Book_Launch early-access form and its subscribe
endpoint.

Client side (EarlyAccessBookLaunch component): field validation
(`validateEmail`, `validatePhone`), the submit handler (`submitPhase1`
up to the suspension at the network call, `submitPhase2` for response
handling, `handleSubmit` for the whole flow), and the UI-level guard
(`uiSubmit`, reflecting the submit button's disabled attribute).

Server side (app/api/subscribe/route.ts): the `POST` handler,
parameterised by the persistence collaborator's insert operation, with
traces of insert invocations and log lines.

Network effects are modelled by passing the outcome of the single fetch
(`FetchResult`) as an explicit parameter, and network calls issued are
returned as an explicit trace.
-/

namespace BookLaunch

/-- A character allowed by the email regex character class, which excludes
whitespace and the at sign. -/
def isEmailChar (c : Char) : Bool :=
  !c.isWhitespace && c != '@'

/-- Splits a character list at the first at sign: returns the characters
before it and the characters after it, or none when no at sign occurs. -/
def findAtSign : List Char → Option (List Char × List Char)
  | [] => none
  | c :: cs =>
    if c = '@' then some ([], cs)
    else
      match findAtSign cs with
      | none => none
      | some (a, r) => some (c :: a, r)

/-- True when the list contains a dot that is neither its first nor its
last element: the list splits as nonempty ++ dot ++ nonempty. -/
def hasInnerDot : List Char → Bool
  | [] => false
  | [_] => false
  | _ :: b :: cs => (b == '.' && !cs.isEmpty) || hasInnerDot (b :: cs)

/-- Embeds the component's validateEmail: the test of the anchored regex
matching one-or-more non-space non-at characters, an at sign, one-or-more
such characters, a dot, and one-or-more such characters. -/
def validateEmail (s : String) : Bool :=
  match findAtSign s.data with
  | none => false
  | some (a, r) =>
    !a.isEmpty && a.all isEmailChar && r.all isEmailChar && hasInnerDot r

/-- Embeds the component's validatePhone: strip non-digits, count, and
require the count to lie between 7 and 15. -/
def validatePhone (p : String) : Bool :=
  let digits := (p.data.filter Char.isDigit).length
  decide (7 ≤ digits) && decide (digits ≤ 15)

/-- JavaScript's String.prototype.trim: drop whitespace from both ends
of the character list. -/
def jsTrim (s : String) : String :=
  ⟨((s.data.dropWhile Char.isWhitespace).reverse.dropWhile Char.isWhitespace).reverse⟩

/-- JavaScript's string or-else: a missing or empty string falls back to
the default (both none and some "" are falsy). -/
def jsOrElse (o : Option String) (d : String) : String :=
  match o with
  | none => d
  | some s => if s = "" then d else s

/-- The component's submission status union type. -/
inductive Status where
  | idle
  | sending
  | success
  | error
deriving DecidableEq, Repr

/-- The component's form state: the three controlled fields, the status,
and the optional error message. -/
structure FormState where
  name : String
  email : String
  phone : String
  status : Status
  error : Option String
deriving DecidableEq, Repr

/-- The JSON payload of the POST request issued by the client. -/
structure Payload where
  name : String
  email : String
  phone : String
deriving DecidableEq, Repr

/-- Outcome of parsing the response body as JSON: either the parse throws
with some exception message, or it yields a value of which the handler
only reads the optional error field. -/
inductive JsonOutcome where
  | malformed (msg : Option String)
  | value (errField : Option String)
deriving DecidableEq, Repr

/-- Outcome of the single fetch: either the request itself throws
(network-level failure) with some exception message, or a response
arrives with its HTTP-success flag and its body's JSON outcome. -/
inductive FetchResult where
  | thrown (msg : Option String)
  | replied (ok : Bool) (body : JsonOutcome)
deriving DecidableEq, Repr

/-- Embeds handleSubmit up to the suspension at the fetch: clears the
prior error, runs the three validations in order with early return, and
on full success sets the status to sending and builds the trimmed
payload (none means no network call is issued). -/
def submitPhase1 (st : FormState) : FormState × Option Payload :=
  let st0 : FormState := { st with error := none }
  if jsTrim st.name = "" then
    ({ st0 with error := some "Please enter your name." }, none)
  else if validateEmail st.email = false then
    ({ st0 with error := some "Please enter a valid email." }, none)
  else if validatePhone st.phone = false then
    ({ st0 with error := some "Please enter a valid phone number." }, none)
  else
    ({ st0 with status := Status.sending },
     some ⟨jsTrim st.name, jsTrim st.email, jsTrim st.phone⟩)

/-- Embeds handleSubmit from the resumption after the fetch: the body is
parsed before the ok check, a non-ok response throws the server-provided
error message with its fallback, the catch block sets status error with
the exception's message or the generic fallback, and a successful parsed
ok response sets status success and clears the three fields. -/
def submitPhase2 (st : FormState) (net : FetchResult) : FormState :=
  match net with
  | FetchResult.thrown m =>
    { st with status := Status.error
              error := some (jsOrElse m "Something went wrong.") }
  | FetchResult.replied ok body =>
    match body with
    | JsonOutcome.malformed m =>
      { st with status := Status.error
                error := some (jsOrElse m "Something went wrong.") }
    | JsonOutcome.value errField =>
      if ok then
        { st with status := Status.success, name := "", email := "", phone := "" }
      else
        { st with status := Status.error
                  error := some (jsOrElse (some (jsOrElse errField "Server error"))
                                          "Something went wrong.") }

/-- Embeds the whole handleSubmit, with the outcome the network would
return passed explicitly; the second component is the trace of payloads
POSTed to the subscribe endpoint. -/
def handleSubmit (st : FormState) (net : FetchResult) : FormState × List Payload :=
  match submitPhase1 st with
  | (st1, none) => (st1, [])
  | (st1, some p) => (submitPhase2 st1 net, [p])

/-- The submit button's disabled attribute: disabled exactly while the
status is sending. -/
def submitDisabled (st : FormState) : Bool :=
  match st.status with
  | Status.sending => true
  | _ => false

/-- A UI-level submit event: a disabled submit control dispatches nothing,
otherwise handleSubmit runs. -/
def uiSubmit (st : FormState) (net : FetchResult) : FormState × List Payload :=
  if submitDisabled st then (st, []) else handleSubmit st net

/-- A record handed to the persistence collaborator: the three destructured
request-body fields, each possibly absent. -/
structure Record where
  name : Option String
  email : Option String
  phone : Option String
deriving DecidableEq, Repr

/-- The request body as the endpoint sees it: either request.json() throws
with some exception message, or it yields an object whose name, email and
phone fields are each possibly absent. -/
inductive ReqBody where
  | malformed (msg : Option String)
  | json (name email phone : Option String)
deriving DecidableEq, Repr

/-- Outcome of the persistence collaborator's insert: data with no error,
an error descriptor carrying a message, or an unexpected exception with
some message. -/
inductive InsertOutcome where
  | success (data : List Record)
  | failure (msg : String)
  | thrown (msg : Option String)
deriving DecidableEq, Repr

/-- The body of an endpoint response: an error object or an ok object
carrying the data array. -/
inductive RespBody where
  | errBody (msg : String)
  | okBody (data : List Record)
deriving DecidableEq, Repr

/-- An HTTP response: status code and JSON body. -/
structure HttpResponse where
  status : Nat
  body : RespBody
deriving DecidableEq, Repr

/-- The result of one endpoint invocation: the response, the trace of
record batches passed to the collaborator's insert, and the trace of
console.error log lines. -/
structure PostResult where
  resp : HttpResponse
  inserts : List (List Record)
  logs : List String
deriving DecidableEq, Repr

/-- JavaScript falsiness for the destructured string fields: absent
(undefined or null) and the empty string are falsy. -/
def isFalsy (o : Option String) : Bool :=
  match o with
  | none => true
  | some s => s == ""

/-- Embeds the POST handler of app/api/subscribe/route.ts, parameterised
by the persistence collaborator's insert operation: parse the body,
reject a falsy name or email with 400, insert a single-element batch,
map an insert error to a logged 500, map success to 200 with the data,
and catch any exception into a logged 500 with its message or the
generic fallback. -/
def POST (req : ReqBody) (insert : List Record → InsertOutcome) : PostResult :=
  match req with
  | ReqBody.malformed m =>
    ⟨⟨500, RespBody.errBody (jsOrElse m "Unknown error")⟩, [],
     ["Subscribe route error: " ++ jsOrElse m "Unknown error"]⟩
  | ReqBody.json name email phone =>
    if isFalsy name || isFalsy email then
      ⟨⟨400, RespBody.errBody "Missing name or email"⟩, [], []⟩
    else
      let batch : List Record := [⟨name, email, phone⟩]
      match insert batch with
      | InsertOutcome.success data =>
        ⟨⟨200, RespBody.okBody data⟩, [batch], []⟩
      | InsertOutcome.failure msg =>
        ⟨⟨500, RespBody.errBody msg⟩, [batch],
         ["Supabase insert error: " ++ msg]⟩
      | InsertOutcome.thrown m =>
        ⟨⟨500, RespBody.errBody (jsOrElse m "Unknown error")⟩, [batch],
         ["Subscribe route error: " ++ jsOrElse m "Unknown error"]⟩

/-- The email shape stated by the spec: one-or-more non-space non-at
characters, an at sign, one-or-more such characters, a dot, and
one-or-more such characters. -/
def EmailShape (s : String) : Prop :=
  ∃ a b c : List Char,
    a ≠ [] ∧ b ≠ [] ∧ c ≠ [] ∧
    (∀ x ∈ a, isEmailChar x = true) ∧
    (∀ x ∈ b, isEmailChar x = true) ∧
    (∀ x ∈ c, isEmailChar x = true) ∧
    s.data = a ++ '@' :: (b ++ '.' :: c)

/-- The digit count stated by the spec: the number of characters of the
string that are digits 0 through 9. -/
def specDigitCount (p : String) : Nat :=
  p.data.countP (fun c => decide ('0' ≤ c ∧ c ≤ '9'))

/-- A persistence collaborator that succeeds, returning the inserted
records, as the spec's collaborator contract describes. -/
def echoInsert (rs : List Record) : InsertOutcome :=
  InsertOutcome.success rs

/-- A persistence collaborator that reports an error descriptor with the
given message. -/
def failingInsert (msg : String) (_ : List Record) : InsertOutcome :=
  InsertOutcome.failure msg

theorem jsOrElse_some_of_ne (s d : String) (hs : s ≠ "") :
    jsOrElse (some s) d = s := by
  simp [jsOrElse, hs]

theorem jsOrElse_ne_empty (o : Option String) (d : String) (hd : d ≠ "") :
    jsOrElse o d ≠ "" := by
  unfold jsOrElse
  cases o with
  | none => exact hd
  | some s =>
    by_cases hs : s = "" <;> simp [hs, hd]

theorem findAtSign_sound (l : List Char) :
    ∀ a r, findAtSign l = some (a, r) → ('@' ∉ a ∧ l = a ++ '@' :: r) := by
  induction l with
  | nil =>
    intro a r h
    simp [findAtSign] at h
  | cons c cs ih =>
    intro a r h
    unfold findAtSign at h
    by_cases hc : c = '@'
    · rw [if_pos hc] at h
      simp only [Option.some.injEq, Prod.mk.injEq] at h
      obtain ⟨ha, hr⟩ := h
      subst ha
      subst hr
      subst hc
      exact ⟨List.not_mem_nil _, rfl⟩
    · rw [if_neg hc] at h
      cases hfind : findAtSign cs with
      | none =>
        rw [hfind] at h
        simp at h
      | some pr =>
        obtain ⟨a', r'⟩ := pr
        rw [hfind] at h
        simp only [Option.some.injEq, Prod.mk.injEq] at h
        obtain ⟨ha, hr⟩ := h
        obtain ⟨ih1, ih2⟩ := ih a' r' hfind
        subst ha
        subst hr
        constructor
        · intro hm
          rcases List.mem_cons.mp hm with h1 | h2
          · exact hc h1.symm
          · exact ih1 h2
        · simp [ih2]

theorem findAtSign_complete (a r : List Char) :
    '@' ∉ a → findAtSign (a ++ '@' :: r) = some (a, r) := by
  induction a with
  | nil =>
    intro _
    simp [findAtSign]
  | cons c cs ih =>
    intro ha
    have hc : c ≠ '@' := by
      intro h
      exact ha (by simp [h])
    have ha' : '@' ∉ cs := fun h => ha (List.mem_cons_of_mem _ h)
    simp [findAtSign, hc, ih ha']

theorem hasInnerDot_iff (l : List Char) :
    hasInnerDot l = true ↔ ∃ p q : List Char, p ≠ [] ∧ q ≠ [] ∧ l = p ++ '.' :: q := by
  induction l with
  | nil =>
    simp only [hasInnerDot, Bool.false_eq_true, false_iff]
    rintro ⟨p, q, hp, hq, h⟩
    cases p <;> exact List.noConfusion h
  | cons a t ih =>
    cases t with
    | nil =>
      simp only [hasInnerDot, Bool.false_eq_true, false_iff]
      rintro ⟨p, q, hp, hq, h⟩
      cases p with
      | nil => exact hp rfl
      | cons x xs =>
        simp only [List.cons_append, List.cons.injEq] at h
        obtain ⟨_, h2⟩ := h
        cases xs <;> exact List.noConfusion h2
    | cons b cs =>
      constructor
      · intro h
        rw [hasInnerDot] at h
        rcases Bool.or_eq_true_iff.mp h with h1 | h2
        · obtain ⟨hb, hcs⟩ := Bool.and_eq_true_iff.mp h1
          have hb' : b = '.' := by simpa using hb
          have hcs' : cs ≠ [] := by simpa using hcs
          exact ⟨[a], cs, by simp, hcs', by simp [hb']⟩
        · obtain ⟨p, q, hp, hq, heq⟩ := ih.mp h2
          exact ⟨a :: p, q, by simp, hq, by rw [List.cons_append, heq]⟩
      · rintro ⟨p, q, hp, hq, heq⟩
        cases p with
        | nil => exact absurd rfl hp
        | cons x xs =>
          simp only [List.cons_append, List.cons.injEq] at heq
          obtain ⟨_, heq2⟩ := heq
          rw [hasInnerDot]
          apply Bool.or_eq_true_iff.mpr
          cases xs with
          | nil =>
            left
            simp only [List.nil_append, List.cons.injEq] at heq2
            obtain ⟨hb, hcs⟩ := heq2
            subst hb
            subst hcs
            simp [hq]
          | cons y ys =>
            right
            exact ih.mpr ⟨y :: ys, q, by simp, hq, by simpa using heq2⟩

theorem isDigit_eq_specDigit (c : Char) :
    c.isDigit = decide ('0' ≤ c ∧ c ≤ '9') := by
  simp [Char.isDigit, Char.le_def]

theorem digit_filter_eq_specCount (p : String) :
    (p.data.filter Char.isDigit).length = specDigitCount p := by
  unfold specDigitCount
  rw [List.countP_eq_length_filter]
  apply congrArg List.length
  apply List.filter_congr
  intro c _
  exact isDigit_eq_specDigit c

theorem isEmailChar_dot : isEmailChar '.' = true := by decide

theorem isEmailChar_at : isEmailChar '@' = false := by decide

/-- C3: for every string s, email validation passes if and only if s has
the shape one-or-more non-space non-at characters, then an at sign, then
one-or-more such characters, then a dot, then one-or-more such
characters. -/
theorem validateEmail_iff_shape (s : String) :
    validateEmail s = true ↔ EmailShape s := by
  unfold validateEmail EmailShape
  cases hfind : findAtSign s.data with
  | none =>
    simp only [Bool.false_eq_true, false_iff]
    rintro ⟨a, b, c, ha, hb, hc, hea, heb, hec, heq⟩
    have hnot : '@' ∉ a := by
      intro hm
      have := hea '@' hm
      rw [isEmailChar_at] at this
      exact Bool.noConfusion this
    have hsome := findAtSign_complete a (b ++ '.' :: c) hnot
    rw [heq, hsome] at hfind
    exact Option.noConfusion hfind
  | some pr =>
    obtain ⟨a, r⟩ := pr
    obtain ⟨hnotin, heq⟩ := findAtSign_sound s.data a r hfind
    constructor
    · intro h
      simp only [Bool.and_eq_true] at h
      obtain ⟨⟨⟨hne, hall_a⟩, hall_r⟩, hdot⟩ := h
      obtain ⟨p, q, hp, hq, hr⟩ := (hasInnerDot_iff r).mp hdot
      refine ⟨a, p, q, ?_, hp, hq, ?_, ?_, ?_, ?_⟩
      · simpa using hne
      · exact fun x hx => List.all_eq_true.mp hall_a x hx
      · intro x hx
        apply List.all_eq_true.mp hall_r
        rw [hr]
        exact List.mem_append_left _ hx
      · intro x hx
        apply List.all_eq_true.mp hall_r
        rw [hr]
        exact List.mem_append_right _ (List.mem_cons_of_mem _ hx)
      · rw [heq, hr]
    · rintro ⟨a', b, c, ha', hb, hc, hea, heb, hec, heq'⟩
      have hnot : '@' ∉ a' := by
        intro hm
        have := hea '@' hm
        rw [isEmailChar_at] at this
        exact Bool.noConfusion this
      have h1 : findAtSign s.data = some (a', b ++ '.' :: c) := by
        rw [heq']
        exact findAtSign_complete _ _ hnot
      rw [hfind] at h1
      simp only [Option.some.injEq, Prod.mk.injEq] at h1
      obtain ⟨rfl, rfl⟩ := h1
      simp only [Bool.and_eq_true]
      refine ⟨⟨⟨?_, ?_⟩, ?_⟩, ?_⟩
      · simpa using ha'
      · exact List.all_eq_true.mpr hea
      · apply List.all_eq_true.mpr
        intro x hx
        rcases List.mem_append.mp hx with hx | hx
        · exact heb x hx
        · rcases List.mem_cons.mp hx with hx | hx
          · rw [hx]
            exact isEmailChar_dot
          · exact hec x hx
      · exact (hasInnerDot_iff _).mpr ⟨b, c, hb, hc, rfl⟩

/-- C2: for every phone string, validation passes if and only if the
number of characters that are digits 0 through 9 is at least 7 and at
most 15; in particular the four boundary examples behave as stated. -/
theorem validatePhone_digit_window :
    (∀ p, validatePhone p = true ↔ (7 ≤ specDigitCount p ∧ specDigitCount p ≤ 15)) ∧
    validatePhone "123456" = false ∧
    validatePhone "1234567" = true ∧
    validatePhone "+91 98765 43210" = true ∧
    validatePhone "1234567890123456" = false := by
  refine ⟨?_, by decide, by decide, by decide, by decide⟩
  intro p
  unfold validatePhone
  rw [digit_filter_eq_specCount]
  simp

/-- C1: submit clears the prior error, runs the validations in the fixed
order name, email, phone, stops at the first failure with that field's
message, leaves the status and the fields unchanged, and issues no
network call. -/
theorem submit_validation_short_circuit (st : FormState) (net : FetchResult) :
    (jsTrim st.name = "" →
      handleSubmit st net = ({ st with error := some "Please enter your name." }, [])) ∧
    (jsTrim st.name ≠ "" → validateEmail st.email = false →
      handleSubmit st net = ({ st with error := some "Please enter a valid email." }, [])) ∧
    (jsTrim st.name ≠ "" → validateEmail st.email = true → validatePhone st.phone = false →
      handleSubmit st net = ({ st with error := some "Please enter a valid phone number." }, [])) := by
  refine ⟨?_, ?_, ?_⟩
  · intro h
    simp [handleSubmit, submitPhase1, h]
  · intro hn he
    simp [handleSubmit, submitPhase1, hn, he]
  · intro hn he hp
    simp [handleSubmit, submitPhase1, hn, he, hp]

theorem submit_validation_short_circuit_witness :
    handleSubmit ⟨"  ", "a@b.c", "1234567", Status.idle, some "old"⟩ (FetchResult.thrown none)
      = (⟨"  ", "a@b.c", "1234567", Status.idle, some "Please enter your name."⟩, []) :=
  (submit_validation_short_circuit ⟨"  ", "a@b.c", "1234567", Status.idle, some "old"⟩
    (FetchResult.thrown none)).1 (by decide)

/-- C8: when all three validations pass, submit sets the status to
sending, clears the error, and issues exactly one POST whose payload is
the three trimmed fields. -/
theorem submit_sends_trimmed_payload (st : FormState) (net : FetchResult)
    (hn : jsTrim st.name ≠ "") (he : validateEmail st.email = true)
    (hp : validatePhone st.phone = true) :
    submitPhase1 st = ({ st with status := Status.sending, error := none },
                       some ⟨jsTrim st.name, jsTrim st.email, jsTrim st.phone⟩) ∧
    (handleSubmit st net).2 = [⟨jsTrim st.name, jsTrim st.email, jsTrim st.phone⟩] := by
  have h1 : submitPhase1 st = ({ st with status := Status.sending, error := none },
      some ⟨jsTrim st.name, jsTrim st.email, jsTrim st.phone⟩) := by
    simp [submitPhase1, hn, he, hp]
  refine ⟨h1, ?_⟩
  rw [handleSubmit, h1]

theorem submit_sends_trimmed_payload_witness :
    submitPhase1 ⟨" Ann ", "a@b.c", "1234567", Status.idle, some "old"⟩
      = (⟨" Ann ", "a@b.c", "1234567", Status.sending, none⟩,
         some ⟨"Ann", "a@b.c", "1234567"⟩) ∧
    (handleSubmit ⟨" Ann ", "a@b.c", "1234567", Status.idle, some "old"⟩
       (FetchResult.replied true (JsonOutcome.value none))).2
      = [⟨"Ann", "a@b.c", "1234567"⟩] :=
  submit_sends_trimmed_payload ⟨" Ann ", "a@b.c", "1234567", Status.idle, some "old"⟩
    (FetchResult.replied true (JsonOutcome.value none))
    (by decide) (by decide) (by decide)

/-- C4: after the network phase, a parseable HTTP-successful response
sets the status to success and clears the three fields; a parseable
non-success response sets the status to error with the server-provided
message or the generic fallback and retains the three fields; a
network-level failure sets the status to error with the exception's
message or the generic fallback and retains the three fields. -/
theorem submit_response_outcomes (st : FormState) (net : FetchResult)
    (hn : jsTrim st.name ≠ "") (he : validateEmail st.email = true)
    (hp : validatePhone st.phone = true) :
    (∀ e, net = FetchResult.replied true (JsonOutcome.value e) →
      (handleSubmit st net).1 =
        { st with status := Status.success, name := "", email := "", phone := "", error := none }) ∧
    (∀ e, net = FetchResult.replied false (JsonOutcome.value e) →
      (handleSubmit st net).1 =
        { st with status := Status.error, error := some (jsOrElse e "Server error") }) ∧
    (∀ m, net = FetchResult.thrown m →
      (handleSubmit st net).1 =
        { st with status := Status.error, error := some (jsOrElse m "Something went wrong.") }) := by
  have h1 : submitPhase1 st = ({ st with status := Status.sending, error := none },
      some ⟨jsTrim st.name, jsTrim st.email, jsTrim st.phone⟩) := by
    simp [submitPhase1, hn, he, hp]
  refine ⟨?_, ?_, ?_⟩
  · rintro e rfl
    rw [handleSubmit, h1]
    simp [submitPhase2]
  · rintro e rfl
    rw [handleSubmit, h1]
    have hne : jsOrElse e "Server error" ≠ "" :=
      jsOrElse_ne_empty e "Server error" (by decide)
    simp [submitPhase2, jsOrElse_some_of_ne _ _ hne]
  · rintro m rfl
    rw [handleSubmit, h1]
    simp [submitPhase2]

theorem submit_response_outcomes_witness :
    (handleSubmit ⟨"Ann", "a@b.c", "1234567", Status.idle, none⟩
       (FetchResult.replied false (JsonOutcome.value (some "bad email")))).1
      = ⟨"Ann", "a@b.c", "1234567", Status.error, some "bad email"⟩ :=
  (submit_response_outcomes ⟨"Ann", "a@b.c", "1234567", Status.idle, none⟩
    (FetchResult.replied false (JsonOutcome.value (some "bad email")))
    (by decide) (by decide) (by decide)).2.1 (some "bad email") rfl

/-- C10: the response body is parsed before the HTTP-success check, so a
response with an unparseable body ends with status error and the parse
exception's message or the generic fallback, even when the response is
HTTP 200; the status success is reached exactly when the response is
HTTP-successful with a parseable body. -/
theorem submit_requires_parseable_json (st : FormState)
    (hn : jsTrim st.name ≠ "") (he : validateEmail st.email = true)
    (hp : validatePhone st.phone = true) :
    (∀ (ok : Bool) m,
      (handleSubmit st (FetchResult.replied ok (JsonOutcome.malformed m))).1.status = Status.error ∧
      (handleSubmit st (FetchResult.replied ok (JsonOutcome.malformed m))).1.error =
        some (jsOrElse m "Something went wrong.")) ∧
    (∀ net, (handleSubmit st net).1.status = Status.success ↔
      ∃ e, net = FetchResult.replied true (JsonOutcome.value e)) := by
  have h1 : submitPhase1 st = ({ st with status := Status.sending, error := none },
      some ⟨jsTrim st.name, jsTrim st.email, jsTrim st.phone⟩) := by
    simp [submitPhase1, hn, he, hp]
  constructor
  · intro ok m
    rw [handleSubmit, h1]
    simp [submitPhase2]
  · intro net
    rw [handleSubmit, h1]
    cases net with
    | thrown m => simp [submitPhase2]
    | replied ok body =>
      cases body with
      | malformed m => simp [submitPhase2]
      | value e =>
        cases ok with
        | false => simp [submitPhase2]
        | true => simp [submitPhase2]

theorem submit_requires_parseable_json_witness :
    (handleSubmit ⟨"Ann", "a@b.c", "1234567", Status.idle, none⟩
       (FetchResult.replied true (JsonOutcome.malformed none))).1.status = Status.error ∧
    (handleSubmit ⟨"Ann", "a@b.c", "1234567", Status.idle, none⟩
       (FetchResult.replied true (JsonOutcome.malformed none))).1.error =
      some "Something went wrong." :=
  (submit_requires_parseable_json ⟨"Ann", "a@b.c", "1234567", Status.idle, none⟩
    (by decide) (by decide) (by decide)).1 true none

/-- C9: a submit dispatched while the status is sending issues no network
call, because the submit control is disabled exactly while the status is
sending; in particular, after a first submit has passed validation and is
suspended at the network call, a second submit does nothing. -/
theorem submit_reentrancy_guard :
    (∀ st net, st.status = Status.sending → uiSubmit st net = (st, [])) ∧
    (∀ st net, jsTrim st.name ≠ "" → validateEmail st.email = true →
      validatePhone st.phone = true →
      uiSubmit (submitPhase1 st).1 net = ((submitPhase1 st).1, [])) := by
  have hguard : ∀ st net, st.status = Status.sending → uiSubmit st net = (st, []) := by
    intro st net h
    rw [uiSubmit]
    have : submitDisabled st = true := by
      rw [submitDisabled, h]
    rw [if_pos this]
  refine ⟨hguard, ?_⟩
  intro st net hn he hp
  apply hguard
  simp [submitPhase1, hn, he, hp]

theorem submit_reentrancy_guard_witness :
    uiSubmit (submitPhase1 ⟨"Ann", "a@b.c", "1234567", Status.idle, none⟩).1
        (FetchResult.replied true (JsonOutcome.value none))
      = ((submitPhase1 ⟨"Ann", "a@b.c", "1234567", Status.idle, none⟩).1, []) :=
  submit_reentrancy_guard.2 ⟨"Ann", "a@b.c", "1234567", Status.idle, none⟩
    (FetchResult.replied true (JsonOutcome.value none))
    (by decide) (by decide) (by decide)

/-- C5: a request body whose name or email is falsy (absent, null, or the
empty string) is answered 400 with the missing-fields error body, the
collaborator's insert is never invoked, and phone is not required. -/
theorem endpoint_rejects_missing_fields (name email phone : Option String)
    (insert : List Record → InsertOutcome)
    (h : isFalsy name = true ∨ isFalsy email = true) :
    POST (ReqBody.json name email phone) insert =
      ⟨⟨400, RespBody.errBody "Missing name or email"⟩, [], []⟩ := by
  unfold POST
  rcases h with h | h <;> simp [h]

theorem endpoint_rejects_missing_fields_witness :
    POST (ReqBody.json (some "A") none (some "123")) echoInsert =
      ⟨⟨400, RespBody.errBody "Missing name or email"⟩, [], []⟩ :=
  endpoint_rejects_missing_fields (some "A") none (some "123") echoInsert
    (Or.inr rfl)

/-- C6: a request with truthy name and email whose insert succeeds is
answered 200 with the ok body carrying the collaborator's data array,
exactly one single-record batch is inserted, and when the collaborator
returns the inserted records the data array contains the inserted
record. -/
theorem endpoint_success_response (name email phone : Option String)
    (insert : List Record → InsertOutcome) (d : List Record)
    (hn : isFalsy name = false) (he : isFalsy email = false)
    (hins : insert [⟨name, email, phone⟩] = InsertOutcome.success d) :
    POST (ReqBody.json name email phone) insert =
      ⟨⟨200, RespBody.okBody d⟩, [[⟨name, email, phone⟩]], []⟩ ∧
    (d = [⟨name, email, phone⟩] → (⟨name, email, phone⟩ : Record) ∈ d) := by
  constructor
  · unfold POST
    simp [hn, he, hins]
  · intro hd
    rw [hd]
    exact List.mem_singleton.mpr rfl

theorem endpoint_success_response_witness :
    POST (ReqBody.json (some "A") (some "a@b.com") (some "123")) echoInsert =
      ⟨⟨200, RespBody.okBody [⟨some "A", some "a@b.com", some "123"⟩]⟩,
       [[⟨some "A", some "a@b.com", some "123"⟩]], []⟩ ∧
    ((⟨some "A", some "a@b.com", some "123"⟩ : Record) ∈
      [(⟨some "A", some "a@b.com", some "123"⟩ : Record)]) := by
  have h := endpoint_success_response (some "A") (some "a@b.com") (some "123")
    echoInsert [⟨some "A", some "a@b.com", some "123"⟩] rfl rfl rfl
  exact ⟨h.1, h.2 rfl⟩

/-- C7: every failure inside the endpoint yields a handled response: a
parse exception becomes a logged 500 with its message or the generic
fallback, an insert error descriptor becomes a logged 500 with the
collaborator's message, an insert exception becomes a logged 500 with its
message or the generic fallback, and every execution path produces a 200,
a 400, or a 500 carrying an error body. -/
theorem endpoint_failures_handled (req : ReqBody)
    (insert : List Record → InsertOutcome) :
    (∀ m, req = ReqBody.malformed m →
      POST req insert = ⟨⟨500, RespBody.errBody (jsOrElse m "Unknown error")⟩, [],
        ["Subscribe route error: " ++ jsOrElse m "Unknown error"]⟩) ∧
    (∀ name email phone msg, req = ReqBody.json name email phone →
      isFalsy name = false → isFalsy email = false →
      insert [⟨name, email, phone⟩] = InsertOutcome.failure msg →
      POST req insert = ⟨⟨500, RespBody.errBody msg⟩, [[⟨name, email, phone⟩]],
        ["Supabase insert error: " ++ msg]⟩) ∧
    (∀ name email phone m, req = ReqBody.json name email phone →
      isFalsy name = false → isFalsy email = false →
      insert [⟨name, email, phone⟩] = InsertOutcome.thrown m →
      POST req insert = ⟨⟨500, RespBody.errBody (jsOrElse m "Unknown error")⟩,
        [[⟨name, email, phone⟩]],
        ["Subscribe route error: " ++ jsOrElse m "Unknown error"]⟩) ∧
    ((POST req insert).resp.status = 200 ∨ (POST req insert).resp.status = 400 ∨
      ((POST req insert).resp.status = 500 ∧
        ∃ m, (POST req insert).resp.body = RespBody.errBody m)) := by
  refine ⟨?_, ?_, ?_, ?_⟩
  · rintro m rfl
    rfl
  · rintro name email phone msg rfl hn he hins
    unfold POST
    simp [hn, he, hins]
  · rintro name email phone m rfl hn he hins
    unfold POST
    simp [hn, he, hins]
  · cases req with
    | malformed m =>
      right; right
      exact ⟨rfl, jsOrElse m "Unknown error", rfl⟩
    | json name email phone =>
      unfold POST
      by_cases hn : isFalsy name = true
      · right; left
        simp [hn]
      · by_cases he : isFalsy email = true
        · right; left
          simp [he]
        · simp only [Bool.not_eq_true] at hn he
          simp only [hn, he, Bool.or_self, Bool.false_eq_true, if_false]
          cases hins : insert [⟨name, email, phone⟩] with
          | success d => left; rfl
          | failure msg =>
            right; right
            exact ⟨rfl, msg, rfl⟩
          | thrown m =>
            right; right
            exact ⟨rfl, jsOrElse m "Unknown error", rfl⟩

theorem endpoint_failures_handled_witness :
    POST (ReqBody.json (some "A") (some "a@b.com") none) (failingInsert "db down") =
      ⟨⟨500, RespBody.errBody "db down"⟩, [[⟨some "A", some "a@b.com", none⟩]],
       ["Supabase insert error: " ++ "db down"]⟩ :=
  (endpoint_failures_handled (ReqBody.json (some "A") (some "a@b.com") none)
    (failingInsert "db down")).2.1 (some "A") (some "a@b.com") none "db down"
    rfl rfl rfl rfl

end BookLaunch
